import Mathlib

/-!
Verification of the htmlToFigma conversion engine.

This file gives a shallow embedding of the conversion code
(figmaToDesign/src/converters/base-converter.ts, the SelectorMatcher and
SvgConverter classes, and figmaToDesign/src/utils/font-manager.ts) and proves
properties of that embedding.

Modelling conventions:
- JavaScript numbers are modelled as rationals; NaN is modelled by Option, with
  none standing for NaN.
- JavaScript string-valued objects (style maps, declaration maps) are modelled
  as lists of assignments in insertion order; property lookup returns the most
  recent binding, which matches repeated assignment to an object field.
- External libraries (css-select matching, svg-parser parsing, cheerio HTML
  parsing, image fetching) are modelled as oracle parameters: the embedded
  functions are parametric in their results, exactly as the source delegates
  those computations.
- String helpers are implemented over character lists so that all definitions
  reduce inside the kernel.
-/

/-- JavaScript number results: none models NaN. -/
abbrev JsNum := Option ℚ

/-- Characters of the JavaScript whitespace class (ASCII part, which covers the
analysed inputs). -/
def jsIsWs (c : Char) : Bool :=
  c = ' ' || c = '\t' || c = '\n' || c = '\r' || c = '\x0b' || c = '\x0c'

/-- Value of a list of decimal digit characters. -/
def digitsToNat (l : List Char) : ℕ :=
  l.foldl (fun a c => a * 10 + (c.toNat - 48)) 0

/-- Sign handling shared by the parseInt and parseFloat models: returns the sign
and the remaining characters. -/
def jsSign (l : List Char) : Bool × List Char :=
  match l with
  | c :: rest => if c = '-' then (true, rest) else if c = '+' then (false, rest) else (false, l)
  | [] => (false, [])

/-- JavaScript parseFloat: skip leading whitespace, optional sign, then decimal
digits with an optional fractional part. Returns none for NaN. Exponent
suffixes do not occur in the analysed inputs and are not modelled. -/
def jsParseFloat (s : String) : JsNum :=
  let l := s.data.dropWhile jsIsWs
  let sn := jsSign l
  let ip := sn.2.takeWhile Char.isDigit
  let rest := sn.2.drop ip.length
  let fp : List Char :=
    match rest with
    | c :: r2 => if c = '.' then r2.takeWhile Char.isDigit else []
    | [] => []
  if ip.isEmpty && fp.isEmpty then none
  else
    let mag : ℚ := (digitsToNat ip : ℚ) + (digitsToNat fp : ℚ) / (10 : ℚ) ^ fp.length
    some (if sn.1 then -mag else mag)

/-- JavaScript parseInt with radix 10: skip leading whitespace, optional sign,
then a maximal run of decimal digits; none models NaN. -/
def jsParseInt (s : String) : Option ℤ :=
  let l := s.data.dropWhile jsIsWs
  let sn := jsSign l
  let ds := sn.2.takeWhile Char.isDigit
  if ds.isEmpty then none
  else some (if sn.1 then -(digitsToNat ds : ℤ) else (digitsToNat ds : ℤ))

/-- Hex digit test for the parseInt radix 16 model. -/
def isHexDigit (c : Char) : Bool :=
  c.isDigit || (c ≥ 'a' && c ≤ 'f') || (c ≥ 'A' && c ≤ 'F')

/-- Value of one hex digit character. -/
def hexDigitVal (c : Char) : ℕ :=
  if c.isDigit then c.toNat - 48
  else if c ≥ 'a' then c.toNat - 87
  else c.toNat - 55

/-- Value of a list of hex digit characters. -/
def hexToNat (l : List Char) : ℕ :=
  l.foldl (fun a c => a * 16 + hexDigitVal c) 0

/-- JavaScript parseInt with radix 16: skip leading whitespace, optional sign,
optional 0x marker, then a maximal run of hex digits; none models NaN. -/
def jsParseInt16 (s : String) : Option ℤ :=
  let l := s.data.dropWhile jsIsWs
  let sn := jsSign l
  let l2 : List Char :=
    match sn.2 with
    | '0' :: x :: rest => if x = 'x' || x = 'X' then rest else sn.2
    | _ => sn.2
  let ds := l2.takeWhile isHexDigit
  if ds.isEmpty then none
  else some (if sn.1 then -(hexToNat ds : ℤ) else (hexToNat ds : ℤ))

/-- Maximal runs of decimal digits of a string, in order: the result of the
JavaScript global regex match for one-or-more-digits, or the empty list when
the match result is null. -/
def digitRunsGo : List Char → List Char → List String
  | [], cur => if cur.isEmpty then [] else [⟨cur.reverse⟩]
  | c :: rest, cur =>
    if c.isDigit then digitRunsGo rest (c :: cur)
    else if cur.isEmpty then digitRunsGo rest []
    else ⟨cur.reverse⟩ :: digitRunsGo rest []

/-- Digit runs of a string. -/
def digitRuns (s : String) : List String := digitRunsGo s.data []

/-- Splitting on a whitespace-run separator, as the JavaScript split on the
one-or-more-whitespace regex: boundary separators produce empty tokens. The
boolean state records that we are inside a separator run whose preceding token
is held in cur. -/
def splitWsGo : List Char → List Char → Bool → List String
  | [], cur, false => [⟨cur.reverse⟩]
  | [], cur, true => [⟨cur.reverse⟩, ""]
  | c :: rest, cur, false =>
    if jsIsWs c then splitWsGo rest cur true
    else splitWsGo rest (c :: cur) false
  | c :: rest, cur, true =>
    if jsIsWs c then splitWsGo rest cur true
    else ⟨cur.reverse⟩ :: splitWsGo rest [c] false

/-- Split a string on whitespace runs. -/
def splitWs (s : String) : List String := splitWsGo s.data [] false

/-- Split a string on a single separator character, as the JavaScript split on
a one-character string. -/
def splitOnCharGo (sep : Char) : List Char → List Char → List String
  | [], cur => [⟨cur.reverse⟩]
  | c :: rest, cur =>
    if c = sep then ⟨cur.reverse⟩ :: splitOnCharGo sep rest []
    else splitOnCharGo sep rest (c :: cur)

/-- Split a string on a separator character. -/
def splitOnChar (sep : Char) (s : String) : List String := splitOnCharGo sep s.data []

/-- String trim over character lists (ASCII whitespace, which covers the
analysed inputs). -/
def strTrim (s : String) : String :=
  ⟨((s.data.dropWhile jsIsWs).reverse.dropWhile jsIsWs).reverse⟩

/-- ASCII lower-casing of one character, as toLowerCase acts on the analysed
inputs. -/
def lowerChar (c : Char) : Char :=
  if c.toNat ≥ 65 && c.toNat ≤ 90 then Char.ofNat (c.toNat + 32) else c

/-- ASCII lower-casing of a string. -/
def strLower (s : String) : String := ⟨s.data.map lowerChar⟩

/-- ASCII upper-casing of one character. -/
def upperChar (c : Char) : Char :=
  if c.toNat ≥ 97 && c.toNat ≤ 122 then Char.ofNat (c.toNat - 32) else c

/-- ASCII upper-casing of a string. -/
def strUpper (s : String) : String := ⟨s.data.map upperChar⟩

/-- Slice of a string between two character positions. -/
def strSlice (s : String) (start stop : ℕ) : String :=
  ⟨(s.data.drop start).take (stop - start)⟩

/-- Drop of leading characters of a string. -/
def strDrop (s : String) (n : ℕ) : String := ⟨s.data.drop n⟩

/-- Character length of a string. -/
def strLen (s : String) : ℕ := s.data.length

/-- Prefix test over character lists. -/
def strStartsWith (s pre : String) : Bool := pre.data.isPrefixOf s.data

/-- Suffix test over character lists. -/
def strEndsWith (s suf : String) : Bool := suf.data.reverse.isPrefixOf s.data.reverse

/-- Substring search at every suffix position. -/
def strIncludesGo (needle : List Char) : List Char → Bool
  | [] => needle.isEmpty
  | c :: rest => needle.isPrefixOf (c :: rest) || strIncludesGo needle rest

/-- Substring test, as the JavaScript includes method on strings. -/
def strIncludes (hay needle : String) : Bool :=
  strIncludesGo needle.data hay.data

/-- JavaScript or-default on an optional string where the falsy values are the
missing value and the empty string. -/
def jsStrOr (a : Option String) (b : String) : String :=
  match a with
  | some v => if v = "" then b else v
  | none => b

/-- JavaScript or-zero on a number: NaN (and an absent value) become 0, and 0
stays 0, matching the or-operator with a zero right operand. -/
def jsOrZero (v : JsNum) : ℚ :=
  match v with
  | some x => x
  | none => 0

/-- JavaScript or-default on a number for a non-zero default: NaN, an absent
value, and 0 are falsy and yield the default. -/
def jsNumOr (v : JsNum) (d : ℚ) : ℚ :=
  match v with
  | some x => if x = 0 then d else x
  | none => d

/-- Rounding of a non-negative rational as the JavaScript Math round: floor of
the value plus one half. -/
def jsMathRound (q : ℚ) : ℤ := ⌊q + 1 / 2⌋

/-! ## Style objects and the cascade (computeStyles) -/

/-- A JavaScript object holding string-valued style properties, modelled as the
list of assignments in insertion order. -/
abbrev Styles := List (String × String)

/-- Property lookup: fold over the assignments in order, so the most recent
assignment wins, matching repeated assignment to an object field. -/
def getProp (m : Styles) (k : String) : Option String :=
  m.foldl (fun acc p => if p.1 == k then some p.2 else acc) none

/-- Property access at a point where the source tests truthiness: the empty
string is falsy, so it reads as an absent property. -/
def getTruthy (m : Styles) (k : String) : Option String :=
  match getProp m k with
  | some v => if v = "" then none else some v
  | none => none

/-- The parsed rule map of parseCssRules: an insertion-ordered map from
selector text to the declaration object of the rule. The css-tree parse that
produces it is external; the cascade is parametric in this list. -/
abbrev CssRules := List (String × Styles)

/-- Iteration over all rules in map order, overlaying the declaration object of
each rule whose selector matches (the Object assign call in computeStyles).
Overlaying is list append, because lookup takes the most recent binding. -/
def applyMatchedRules (matchesSel : String → Bool) (cssRules : CssRules) (styles : Styles) : Styles :=
  cssRules.foldl (fun acc r => if matchesSel r.1 then acc ++ r.2 else acc) styles

/-- Parsing of an inline style attribute in computeStyles: split on semicolons,
split each piece on colons, trim, and keep the pairs whose property and value
are both non-empty. Sequential assignment of the pairs is append, because
lookup takes the most recent binding. -/
def parseInlineStyles (inl : String) : Styles :=
  (splitOnChar ';' inl).filterMap (fun rule =>
    match (splitOnChar ':' rule).map strTrim with
    | property :: value :: _ =>
      if property ≠ "" && value ≠ "" then some (property, value) else none
    | _ => none)

/-- The cascade of computeStyles: start from a copy of the parent styles, apply
matched rules in map order, then overlay the inline style attribute when
present. The selector matcher (css-select) is an oracle parameter. -/
def computeStyles (matchesSel : String → Bool) (cssRules : CssRules)
    (parentStyles : Styles) (inlineStyle : Option String) : Styles :=
  let styles := applyMatchedRules matchesSel cssRules parentStyles
  match inlineStyle with
  | some inl => styles ++ parseInlineStyles inl
  | none => styles

namespace SelectorMatcher

/-- Letter test of the tag-selector regex (case-insensitive flag). -/
def isTagLetter (c : Char) : Bool :=
  (c ≥ 'a' && c ≤ 'z') || (c ≥ 'A' && c ≤ 'Z')

/-- Characters accepted by the lookbehind of the tag-selector regex. -/
def isTagGap (c : Char) : Bool :=
  jsIsWs c || c = '>' || c = '+' || c = '~'

/-- Count of letter runs that start at the beginning of the selector or right
after a combinator character, matching the global regex used for tag
selectors. -/
def tagRunCountGo : Option Char → List Char → ℕ
  | _, [] => 0
  | prev, c :: rest =>
    (if isTagLetter c &&
        (match prev with
         | none => true
         | some p => isTagGap p) then 1 else 0) + tagRunCountGo (some c) rest

/-- The getSelectorSpecificity function: 1000 per id marker, 100 per class,
attribute or pseudo-class marker, and 1 per type-selector letter run. -/
def getSelectorSpecificity (selector : String) : ℕ :=
  let idCount := (selector.data.filter (fun c => c = '#')).length
  let classCount := (selector.data.filter (fun c => c = '.' || c = ':' || c = '[')).length
  let tagCount := tagRunCountGo none selector.data
  1000 * idCount + 100 * classCount + tagCount

end SelectorMatcher

/-! ## Color parsing (colorToFigma) -/

/-- A Figma color object with channels that may be NaN. -/
structure FigmaColor where
  r : JsNum
  g : JsNum
  b : JsNum
  a : JsNum
deriving DecidableEq, Repr

/-- The colorToFigma function of the base converter: hex colors by character
slices, rgb and rgba colors by the global digit-run regex, and opaque black
for everything else. -/
def colorToFigma (color : String) : FigmaColor :=
  if strStartsWith color "#" then
    let hex := strDrop color 1
    let r := (jsParseInt16 (strSlice hex 0 2)).map (fun n => (n : ℚ) / 255)
    let g := (jsParseInt16 (strSlice hex 2 4)).map (fun n => (n : ℚ) / 255)
    let b := (jsParseInt16 (strSlice hex 4 6)).map (fun n => (n : ℚ) / 255)
    let a := if strLen hex = 8 then (jsParseInt16 (strSlice hex 6 8)).map (fun n => (n : ℚ) / 255)
             else some 1
    ⟨r, g, b, a⟩
  else if strStartsWith color "rgb" then
    let m := digitRuns color
    if m.isEmpty then ⟨some 0, some 0, some 0, some 1⟩
    else
      let r := (m[0]?).bind jsParseInt |>.map (fun n => (n : ℚ) / 255)
      let g := (m[1]?).bind jsParseInt |>.map (fun n => (n : ℚ) / 255)
      let b := (m[2]?).bind jsParseInt |>.map (fun n => (n : ℚ) / 255)
      let a : JsNum :=
        match m[3]? with
        | some v => jsParseFloat v
        | none => some 1
      ⟨r, g, b, a⟩
  else ⟨some 0, some 0, some 0, some 1⟩

/-! ## Sizes, padding and layout (parseSize, parsePadding, getLayoutProperties) -/

/-- The caller-supplied viewport. -/
structure Viewport where
  width : ℚ
  height : ℚ
deriving DecidableEq

/-- The parseSize function: px literals, percentages against the given axis
size, em and rem against an assumed root size of 16, and a parseFloat-or-zero
fallback. -/
def parseSize (value : String) (maxSize : ℚ) : JsNum :=
  if strEndsWith value "px" then jsParseFloat value
  else if strEndsWith value "%" then (jsParseFloat value).map (fun v => v / 100 * maxSize)
  else if strEndsWith value "rem" || strEndsWith value "em" then
    (jsParseFloat value).map (fun v => v * 16)
  else some (jsOrZero (jsParseFloat value))

/-- A parsed padding box. -/
structure Padding where
  top : JsNum
  right : JsNum
  bottom : JsNum
  left : JsNum
deriving DecidableEq, Repr

/-- The parsePadding function: split on whitespace, parse each piece, then
expand one, two or four values per the CSS shorthand; any other count gives an
all-zero padding. -/
def parsePadding (padding : String) : Padding :=
  let values := (splitWs padding).map jsParseFloat
  match values with
  | [v0] => ⟨v0, v0, v0, v0⟩
  | [v0, v1] => ⟨v0, v1, v0, v1⟩
  | [v0, v1, v2, v3] => ⟨v0, v1, v2, v3⟩
  | _ => ⟨some 0, some 0, some 0, some 0⟩

/-- The partial node fields produced by getLayoutProperties; a Option none
field models a field the source never sets. -/
structure LayoutProps where
  width : Option JsNum
  height : Option JsNum
  layoutMode : Option String
  primaryAxisSizingMode : Option String
  counterAxisSizingMode : Option String
  itemSpacing : Option JsNum
  paddingLeft : Option JsNum
  paddingRight : Option JsNum
  paddingTop : Option JsNum
  paddingBottom : Option JsNum
deriving DecidableEq, Repr

/-- The getLayoutProperties function. Note that the source reads the style
property flexDirection in camel case, while the cascade stores declaration
keys exactly as written in CSS (kebab case). -/
def getLayoutProperties (styles : Styles) (viewport : Viewport) : LayoutProps :=
  let width :=
    match getTruthy styles "width" with
    | some w => some (parseSize w viewport.width)
    | none => none
  let height :=
    match getTruthy styles "height" with
    | some h => some (parseSize h viewport.height)
    | none => none
  let display := jsStrOr (getProp styles "display") "block"
  let isFlex := display = "flex"
  let layoutMode :=
    if isFlex then
      some (if getProp styles "flexDirection" = some "column" then "VERTICAL" else "HORIZONTAL")
    else none
  let pam : Option String := if isFlex then some "AUTO" else none
  let cam : Option String := if isFlex then some "AUTO" else none
  let itemSpacing :=
    if isFlex then
      match getTruthy styles "gap" with
      | some g => some (jsParseFloat g)
      | none => none
    else none
  let pad :=
    match getTruthy styles "padding" with
    | some p => some (parsePadding p)
    | none => none
  ⟨width, height, layoutMode, pam, cam, itemSpacing,
   pad.map Padding.left, pad.map Padding.right, pad.map Padding.top, pad.map Padding.bottom⟩

/-! ## Design nodes -/

/-- A solid color fill object or an image fill object as pushed into the fills
and strokes arrays. -/
inductive Paint where
  | colorPaint (c : FigmaColor)
  | imagePaint (imageHash : String) (scaleMode : String)
deriving DecidableEq, Repr

/-- A vector path entry: the raw path data and the winding rule. -/
structure VectorPath where
  path : String
  windingRule : String
deriving DecidableEq, Repr

/-- A parsed line-height value. -/
inductive LineHeightValue where
  | auto
  | pixelsV (value : JsNum)
  | percentV (value : JsNum)
deriving DecidableEq, Repr

/-- A parsed letter-spacing value. -/
structure LetterSpacingValue where
  unit : String
  value : ℚ
deriving DecidableEq, Repr

namespace FontManager

/-- The FONT_MAPPING table of the font manager, in declaration order. -/
def FONT_MAPPING : List (String × String) := [
  ("arial", "Arial"), ("helvetica", "Helvetica"), ("times", "Times New Roman"),
  ("times new roman", "Times New Roman"), ("courier", "Courier New"),
  ("courier new", "Courier New"), ("verdana", "Verdana"), ("georgia", "Georgia"),
  ("palatino", "Palatino"), ("garamond", "Garamond"), ("bookman", "Bookman"),
  ("comic sans ms", "Comic Sans MS"), ("trebuchet ms", "Trebuchet MS"),
  ("arial black", "Arial Black"), ("impact", "Impact"),
  ("roboto", "Roboto"), ("open sans", "Open Sans"), ("lato", "Lato"),
  ("montserrat", "Montserrat"), ("raleway", "Raleway"), ("poppins", "Poppins"),
  ("source sans pro", "Source Sans Pro"), ("oswald", "Oswald"), ("ubuntu", "Ubuntu"),
  ("playfair display", "Playfair Display"), ("merriweather", "Merriweather"),
  ("pt sans", "PT Sans"), ("pt serif", "PT Serif"), ("droid sans", "Droid Sans"),
  ("droid serif", "Droid Serif"),
  ("microsoft yahei", "Microsoft YaHei"), ("simsun", "SimSun"), ("simhei", "SimHei"),
  ("kaiti", "KaiTi"), ("fangsong", "FangSong"), ("pingfang sc", "PingFang SC"),
  ("hiragino sans gb", "Hiragino Sans GB"), ("wenquanyi micro hei", "WenQuanYi Micro Hei")]

/-- The FIGMA_FONTS list of the font manager. -/
def FIGMA_FONTS : List String := [
  "Arial", "Helvetica", "Times New Roman", "Courier New", "Verdana", "Georgia",
  "Roboto", "Open Sans", "Lato", "Montserrat", "Inter", "Poppins", "Source Sans Pro"]

/-- A detected font: family, numeric weight, style and size. -/
structure FontInfo where
  family : String
  weight : ℚ
  style : String
  size : ℚ
deriving DecidableEq, Repr

/-- The result of mapping a web font to a Figma font. -/
structure FigmaFontMapping where
  figmaFamily : String
  figmaWeight : ℚ
  figmaStyle : String
deriving DecidableEq, Repr

/-- Exact lookup in the FONT_MAPPING table. -/
def lookupMapping (k : String) : Option String :=
  (FONT_MAPPING.find? (fun p => p.1 == k)).map (fun p => p.2)

/-- The fuzzyMatchFont method: first a substring match in either direction
against the mapping table, then a lower-cased substring match against the
Figma font list. -/
def fuzzyMatchFont (family : String) : Option String :=
  match FONT_MAPPING.find? (fun p => strIncludes family p.1 || strIncludes p.1 family) with
  | some p => some p.2
  | none => FIGMA_FONTS.find? (fun f => strIncludes (strLower family) (strLower f))

/-- The mapToFigmaFont method: normalize the family, look it up exactly, then
fuzzily, then fall back to Inter; clamp the weight to the range 100 to 900 and
round it to the nearest multiple of 100; keep only italic or normal style. -/
def mapToFigmaFont (fontInfo : FontInfo) : FigmaFontMapping :=
  let normalizedFamily := strTrim (strLower fontInfo.family)
  let fam1 := lookupMapping normalizedFamily
  let fam2 :=
    match fam1 with
    | some f => some f
    | none => fuzzyMatchFont normalizedFamily
  let figmaFamily :=
    match fam2 with
    | some f => f
    | none => "Inter"
  let figmaStyle := if fontInfo.style = "italic" then "italic" else "normal"
  let w1 := if fontInfo.weight < 100 then 100 else fontInfo.weight
  let w2 := if w1 > 900 then 900 else w1
  let figmaWeight : ℚ := ((jsMathRound (w2 / 100) : ℤ) : ℚ) * 100
  ⟨figmaFamily, figmaWeight, figmaStyle⟩

end FontManager

/-- The parseFontWeight method of the base converter: parseInt when the string
is numeric, otherwise a keyword table with default 400. -/
def parseFontWeight (weight : Option String) : ℤ :=
  match weight with
  | none => 400
  | some w =>
    if w = "" then 400
    else
      match jsParseInt w with
      | some n => n
      | none =>
        let kw : List (String × ℤ) :=
          [("normal", 400), ("bold", 700), ("lighter", 300), ("bolder", 700)]
        match (kw.find? (fun p => p.1 == strLower w)).map (fun p => p.2) with
        | some n => n
        | none => 400

/-- ParseFloat applied to a possibly absent string: an absent value parses to
NaN. -/
def jsParseFloatOpt (o : Option String) : JsNum := o.bind jsParseFloat

/-- The parseLineHeight method. -/
def parseLineHeight (height : Option String) : LineHeightValue :=
  match height with
  | none => .auto
  | some h =>
    if h = "" then .auto
    else if h = "normal" then .auto
    else if strEndsWith h "px" then .pixelsV (jsParseFloat h)
    else .percentV ((jsParseFloat h).map (fun v => v * 100))

/-- The parseLetterSpacing method. -/
def parseLetterSpacing (spacing : Option String) : LetterSpacingValue :=
  match spacing with
  | none => ⟨"PIXELS", 0⟩
  | some sp =>
    if sp = "" then ⟨"PIXELS", 0⟩
    else ⟨"PIXELS", jsOrZero (jsParseFloat sp)⟩

/-- The text style object produced by getTextStyle. -/
structure TextStyle where
  fontFamily : String
  fontSize : ℚ
  fontWeight : ℚ
  fontStyle : String
  lineHeight : LineHeightValue
  letterSpacing : LetterSpacingValue
deriving DecidableEq, Repr

/-- The getTextStyle method. The source reads the style keys in camel case
(fontFamily, fontWeight, fontStyle, fontSize, lineHeight, letterSpacing),
which the cascade never produces from CSS text. -/
def getTextStyle (fonts : List (String × FontManager.FontInfo)) (styles : Styles) : TextStyle :=
  let fontFamily := jsStrOr (getProp styles "fontFamily") "Inter"
  let weightNum := parseFontWeight (getProp styles "fontWeight")
  let fontKey := fontFamily ++ "-" ++ toString weightNum ++ "-" ++
    jsStrOr (getProp styles "fontStyle") "normal"
  let mapping :=
    match (fonts.find? (fun p => p.1 == fontKey)).map (fun p => p.2) with
    | some fontInfo => FontManager.mapToFigmaFont fontInfo
    | none =>
      FontManager.mapToFigmaFont
        ⟨fontFamily, (weightNum : ℚ), jsStrOr (getProp styles "fontStyle") "normal",
         jsNumOr (jsParseFloatOpt (getProp styles "fontSize")) 16⟩
  ⟨mapping.figmaFamily,
   jsNumOr (jsParseFloatOpt (getProp styles "fontSize")) 16,
   mapping.figmaWeight,
   mapping.figmaStyle,
   parseLineHeight (getProp styles "lineHeight"),
   parseLetterSpacing (getProp styles "letterSpacing")⟩

/-- An output design node. Field order:
name, ntype, x, y, width, height, opacity, cornerRadius, strokeWeight,
itemSpacing, layoutMode, primaryAxisSizingMode, counterAxisSizingMode,
paddingLeft, paddingRight, paddingTop, paddingBottom, fills, strokes,
characters, textStyle, vectorPaths, children. An outer none models a field the
source never set on the object. -/
inductive DesignNode where
  | mk
    (name : Option String)
    (ntype : String)
    (x : Option JsNum)
    (y : Option JsNum)
    (width : Option JsNum)
    (height : Option JsNum)
    (opacity : Option JsNum)
    (cornerRadius : Option JsNum)
    (strokeWeight : Option JsNum)
    (itemSpacing : Option JsNum)
    (layoutMode : Option String)
    (primaryAxisSizingMode : Option String)
    (counterAxisSizingMode : Option String)
    (paddingLeft : Option JsNum)
    (paddingRight : Option JsNum)
    (paddingTop : Option JsNum)
    (paddingBottom : Option JsNum)
    (fills : Option (List Paint))
    (strokes : Option (List Paint))
    (characters : Option String)
    (textStyle : Option TextStyle)
    (vectorPaths : Option (List VectorPath))
    (children : Option (List DesignNode))

/-- Name field of a node. -/
def DesignNode.nameOf : DesignNode → Option String
  | .mk n .. => n

/-- Type field of a node. -/
def DesignNode.typeOf : DesignNode → String
  | .mk _ t .. => t

/-- X field of a node. -/
def DesignNode.xOf : DesignNode → Option JsNum
  | .mk _ _ v .. => v

/-- Y field of a node. -/
def DesignNode.yOf : DesignNode → Option JsNum
  | .mk _ _ _ v .. => v

/-- Width field of a node. -/
def DesignNode.widthOf : DesignNode → Option JsNum
  | .mk _ _ _ _ v .. => v

/-- Height field of a node. -/
def DesignNode.heightOf : DesignNode → Option JsNum
  | .mk _ _ _ _ _ v .. => v

/-- Opacity field of a node. -/
def DesignNode.opacityOf : DesignNode → Option JsNum
  | .mk _ _ _ _ _ _ v .. => v

/-- Layout mode field of a node. -/
def DesignNode.layoutModeOf : DesignNode → Option String
  | .mk _ _ _ _ _ _ _ _ _ _ v .. => v

/-- Fills field of a node. -/
def DesignNode.fillsOf : DesignNode → Option (List Paint)
  | .mk _ _ _ _ _ _ _ _ _ _ _ _ _ _ _ _ _ v .. => v

/-- Characters field of a node. -/
def DesignNode.charactersOf : DesignNode → Option String
  | .mk _ _ _ _ _ _ _ _ _ _ _ _ _ _ _ _ _ _ _ v .. => v

/-- Vector paths field of a node. -/
def DesignNode.vectorPathsOf : DesignNode → Option (List VectorPath)
  | .mk _ _ _ _ _ _ _ _ _ _ _ _ _ _ _ _ _ _ _ _ _ v _ => v

/-- Children field of a node. -/
def DesignNode.childrenOf : DesignNode → Option (List DesignNode)
  | .mk _ _ _ _ _ _ _ _ _ _ _ _ _ _ _ _ _ _ _ _ _ _ v => v

/-- Replacing the name field, as the object spread with a new name does. -/
def DesignNode.withName : DesignNode → Option String → DesignNode
  | .mk _ a2 a3 a4 a5 a6 a7 a8 a9 a10 a11 a12 a13 a14 a15 a16 a17 a18 a19 a20 a21 a22 a23, nm =>
    .mk nm a2 a3 a4 a5 a6 a7 a8 a9 a10 a11 a12 a13 a14 a15 a16 a17 a18 a19 a20 a21 a22 a23

/-! ## The source tree -/

/-- A parsed markup node: an element with a tag, attributes and children, or a
text node. Tag names are stored lower-cased, as the HTML parser produces
them. -/
inductive Dom where
  | elem (tag : String) (attrs : List (String × String)) (children : List Dom)
  | txt (data : String)

/-- The node type as the underlying DOM library reports it: script and style
elements carry dedicated types, every other element is a plain tag. -/
def Dom.nodeType : Dom → String
  | .elem t _ _ => if t == "script" then "script" else if t == "style" then "style" else "tag"
  | .txt _ => "text"

/-- Attribute lookup on an element. -/
def domAttr : Dom → String → Option String
  | .elem _ attrs _, nm => (attrs.find? (fun p => p.1 == nm)).map (fun p => p.2)
  | .txt _, _ => none

/-- The combined text of a node and all of its descendants, in document order,
as the cheerio text method returns it. -/
def domText : Dom → String
  | .txt s => s
  | .elem _ _ cs => goT cs
where goT : List Dom → String
  | [] => ""
  | c :: rest => domText c ++ goT rest

/-- First node with the given tag in a subtree, in document order. -/
def findFirstDom (tg : String) : Dom → Option Dom
  | .txt _ => none
  | .elem t a kids =>
    if t == tg then some (.elem t a kids)
    else goF kids
where goF : List Dom → Option Dom
  | [] => none
  | c :: rest =>
    match findFirstDom tg c with
    | some r => some r
    | none => goF rest

/-- First descendant with the given tag under a forest of subtrees, in document
order: the find call on a tag selector followed by first. -/
def findInForest (tg : String) : List Dom → Option Dom
  | [] => none
  | c :: rest =>
    match findFirstDom tg c with
    | some r => some r
    | none => findInForest tg rest

/-! ## The vector converter (SvgConverter) -/

/-- A node of the abstract tree returned by the external svg-parser library:
elements with an optional tag name, a property object and children, or text. -/
inductive SvgAst where
  | element (tagName : Option String) (properties : List (String × String)) (children : List SvgAst)
  | textNode (value : String)

namespace SvgConverter

/-- The isSvgElement test. -/
def isSvgElement (tagName : String) : Bool := strLower tagName == "svg"

/-- The named color table of the SvgConverter parseColor method. -/
def namedColors : List (String × FigmaColor) := [
  ("black", ⟨some 0, some 0, some 0, some 1⟩),
  ("white", ⟨some 1, some 1, some 1, some 1⟩),
  ("red", ⟨some 1, some 0, some 0, some 1⟩),
  ("green", ⟨some 0, some 1, some 0, some 1⟩),
  ("blue", ⟨some 0, some 0, some 1, some 1⟩)]

/-- The parseColor method of the SvgConverter: its hex and rgb branches are
character for character the ones of colorToFigma, followed by the named color
table, with opaque black as the default. -/
def parseColor (color : String) : FigmaColor :=
  if strStartsWith color "#" || strStartsWith color "rgb" then colorToFigma color
  else
    match (namedColors.find? (fun p => p.1 == strLower color)).map (fun p => p.2) with
    | some c => c
    | none => ⟨some 0, some 0, some 0, some 1⟩

/-- The parseLength method: parseFloat, with null for NaN and for percentage
values, which would need a context. -/
def parseLength (value : String) : Option ℚ :=
  if value = "" then none
  else
    match jsParseFloat value with
    | none => none
    | some n => if value.data.contains '%' then none else some n

/-- Truthy lookup in an svg-parser property object. -/
def propTruthy (props : List (String × String)) (k : String) : Option String :=
  match (props.find? (fun p => p.1 == k)).map (fun p => p.2) with
  | some v => if v = "" then none else some v
  | none => none

/-- Subtraction on possibly-NaN numbers: NaN propagates. -/
def jsSub (a b : JsNum) : JsNum :=
  match a, b with
  | some x, some y => some (x - y)
  | _, _ => none

set_option maxHeartbeats 1000000 in
/-- The convertSvgChildElement method (the type filter of convertSvgChildren is
folded in as the text case): group tag gives a GROUP node, every other tag a
VECTOR node; fill, stroke, opacity, path data, rectangle and circle geometry
are read from the property object; children are converted recursively. -/
def convertSvgChildElement : SvgAst → Option DesignNode
  | .textNode _ => none
  | .element tagName props children =>
    match tagName with
    | none => none
    | some tn0 =>
      let tn := strLower tn0
      if tn = "" then none
      else
        let ty := if tn = "g" then "GROUP" else "VECTOR"
        let nm := strUpper tn
        let fills :=
          match propTruthy props "fill" with
          | some f => if f ≠ "none" then some [Paint.colorPaint (parseColor f)] else none
          | none => none
        let strokesAndWeight : Option (List Paint) × Option JsNum :=
          match propTruthy props "stroke" with
          | some st =>
            if st ≠ "none" then
              (some [Paint.colorPaint (parseColor st)],
               some (match propTruthy props "stroke-width" with
                     | some sw => jsParseFloat sw
                     | none => some 1))
            else (none, none)
          | none => (none, none)
        let opacity :=
          match propTruthy props "opacity" with
          | some o => some (jsParseFloat o)
          | none => none
        let vectorPaths :=
          if tn = "path" then
            match propTruthy props "d" with
            | some dv => some [VectorPath.mk dv "NONZERO"]
            | none => none
          else none
        let rectW : Option JsNum :=
          if tn = "rect" then
            some (match propTruthy props "width" with
                  | some w => jsParseFloat w
                  | none => some 0)
          else none
        let rectH : Option JsNum :=
          if tn = "rect" then
            some (match propTruthy props "height" with
                  | some h => jsParseFloat h
                  | none => some 0)
          else none
        let rectX : Option JsNum :=
          if tn = "rect" then
            some (match propTruthy props "x" with
                  | some v => jsParseFloat v
                  | none => some 0)
          else none
        let rectY : Option JsNum :=
          if tn = "rect" then
            some (match propTruthy props "y" with
                  | some v => jsParseFloat v
                  | none => some 0)
          else none
        let r : JsNum :=
          match propTruthy props "r" with
          | some rv => jsParseFloat rv
          | none => some 0
        let cx : JsNum :=
          match propTruthy props "cx" with
          | some v => jsParseFloat v
          | none => some 0
        let cy : JsNum :=
          match propTruthy props "cy" with
          | some v => jsParseFloat v
          | none => some 0
        let width := if tn = "circle" then some (r.map (fun v => v * 2)) else rectW
        let height := if tn = "circle" then some (r.map (fun v => v * 2)) else rectH
        let xField := if tn = "circle" then some (jsSub cx r) else rectX
        let yField := if tn = "circle" then some (jsSub cy r) else rectY
        let childField :=
          if children.isEmpty then none else some (goC children)
        some (.mk (some nm) ty xField yField width height opacity none
          strokesAndWeight.2 none none none none none none none none
          fills strokesAndWeight.1 none none vectorPaths childField)
where goC : List SvgAst → List DesignNode
  | [] => []
  | c :: rest =>
    match convertSvgChildElement c with
    | some n => n :: goC rest
    | none => goC rest

/-- The convertSvgChildren method: convert the element children in order. -/
def convertSvgChildren (children : List SvgAst) : List DesignNode :=
  convertSvgChildElement.goC children

end SvgConverter

/-- Path data attributes of path descendants of a node, in document order,
as the extractPaths method collects them with a find call. -/
def collectPathDs : Dom → List String
  | .txt _ => []
  | .elem t attrs kids =>
    (if t == "path" then
       match (attrs.find? (fun p => p.1 == "d")).map (fun p => p.2) with
       | some dv => if dv = "" then [] else [dv]
       | none => []
     else []) ++ goD kids
where goD : List Dom → List String
  | [] => []
  | c :: rest => collectPathDs c ++ goD rest

namespace SvgConverter

/-- The extractPaths method: path descendants of the svg element with a truthy
d attribute, each carried through as an opaque path with the non-zero winding
rule. The svg tag itself is never a path tag, so searching from the root is the
same as searching its descendants. -/
def extractPaths (svg : Dom) : List VectorPath :=
  (collectPathDs svg).map (fun dv => VectorPath.mk dv "NONZERO")

/-- Splitting of a viewBox attribute on the regex alternation of a whitespace
run or a single comma: scanning left to right, a whitespace run is one
separator and each comma is one separator. The boolean state records a pending
whitespace run whose preceding token is held in cur. -/
def splitViewBoxGo : List Char → List Char → Bool → List String
  | [], cur, false => [⟨cur.reverse⟩]
  | [], cur, true => [⟨cur.reverse⟩, ""]
  | c :: rest, cur, false =>
    if c = ',' then ⟨cur.reverse⟩ :: splitViewBoxGo rest [] false
    else if jsIsWs c then splitViewBoxGo rest cur true
    else splitViewBoxGo rest (c :: cur) false
  | c :: rest, cur, true =>
    if jsIsWs c then splitViewBoxGo rest cur true
    else if c = ',' then ⟨cur.reverse⟩ :: "" :: splitViewBoxGo rest [] false
    else ⟨cur.reverse⟩ :: splitViewBoxGo rest [c] false

/-- Split a viewBox attribute value. -/
def splitViewBox (s : String) : List String := splitViewBoxGo s.data [] false

/-- The placeholder node returned by the catch branch of convertSvgElement. -/
def svgPlaceholder : DesignNode :=
  .mk (some "SVG") "VECTOR" none none (some (some 100)) (some (some 100)) none none
    none none none none none none none none none
    (some [Paint.colorPaint ⟨some (4 / 5), some (4 / 5), some (4 / 5), some 1⟩]) none
    none none none none

/-- The convertSvgElement method. The serialization of the subtree and the
svg-parser call are modelled by the parseResult oracle argument: an error value
models the parse (or any other) exception raised inside the try block, and the
ok value carries the children of the parsed root. The catch branch returns the
fixed grey placeholder. -/
def convertSvgElement (parseResult : Except String (List SvgAst)) (d : Dom) : Option DesignNode :=
  match d with
  | .txt _ => none
  | .elem tag attrs children =>
    if strLower tag ≠ "svg" then none
    else
      match parseResult with
      | .error _ => some svgPlaceholder
      | .ok parsedChildren =>
        let dd : Dom := .elem tag attrs children
        let width := parseLength (jsStrOr (domAttr dd "width") "100")
        let height := parseLength (jsStrOr (domAttr dd "height") "100")
        let wh : Option (JsNum × JsNum) :=
          match width, height with
          | some w, some h => if w ≠ 0 && h ≠ 0 then some (some w, some h) else none
          | _, _ => none
        let vb :=
          match domAttr dd "viewBox" with
          | some v => if v = "" then none else some v
          | none => none
        let vbFields : Option (JsNum × JsNum × JsNum × JsNum) :=
          match vb with
          | some v =>
            let parts := (splitViewBox v).map jsParseFloat
            let xv := (parts[0]?).getD none
            let yv := (parts[1]?).getD none
            let wv := (parts[2]?).getD none
            let hv := (parts[3]?).getD none
            match wv, hv with
            | some w, some h =>
              if w ≠ 0 && h ≠ 0 then some (xv, yv, some w, some h) else none
            | _, _ => none
          | none => none
        let geom : Option JsNum × Option JsNum × Option JsNum × Option JsNum :=
          match vbFields with
          | some (xv, yv, wv, hv) =>
            (some wv, some hv, some (some (jsOrZero xv)), some (some (jsOrZero yv)))
          | none =>
            match wh with
            | some (w, h) => (some w, some h, none, none)
            | none => (none, none, none, none)
        let fill := jsStrOr (domAttr dd "fill") "#000000"
        let fills :=
          if fill ≠ "" && fill ≠ "none" then some [Paint.colorPaint (parseColor fill)]
          else none
        let strokesAndWeight : Option (List Paint) × Option JsNum :=
          match domAttr dd "stroke" with
          | some st =>
            if st ≠ "" && st ≠ "none" then
              (some [Paint.colorPaint (parseColor st)],
               some (match domAttr dd "stroke-width" with
                     | some sw => if sw ≠ "" then jsParseFloat sw else some 1
                     | none => some 1))
            else (none, none)
          | none => (none, none)
        let opacity :=
          match domAttr dd "opacity" with
          | some o => if o ≠ "" then some (jsParseFloat o) else none
          | none => none
        let childField : Option (List DesignNode) :=
          if parsedChildren.isEmpty then some []
          else some (convertSvgChildren parsedChildren)
        let paths := extractPaths dd
        let vectorPaths := if paths.isEmpty then none else some paths
        some (.mk (some "SVG") "VECTOR" geom.2.2.1 geom.2.2.2 geom.1 geom.2.1 opacity none
          strokesAndWeight.2 none none none none none none none none
          fills strokesAndWeight.1 none none vectorPaths childField)

end SvgConverter

/-! ## The element converter (convertElement and htmlToFigma) -/

/-- A pre-fetched image resource. -/
structure ImageResource where
  url : String
  data : String
  mimeType : String
  width : Option ℚ
  height : Option ℚ
deriving DecidableEq, Repr

/-- The conversion context of a converter instance: the parsed rule map, the
selector matcher oracle (css-select), the svg parser oracle (serialization of
the subtree followed by svg-parser), the pre-fetched image map, the image
encoder oracle (the optional image processor, with the empty string when it is
absent), and the detected font map. -/
structure ConvEnv where
  cssRules : CssRules
  matchesSel : Dom → String → Bool
  svgParse : Dom → Except String (List SvgAst)
  images : List (String × ImageResource)
  imageToBase64 : ImageResource → String
  fonts : List (String × FontManager.FontInfo)

/-- The tags skipped by convertElement. -/
def skipTags : List String := ["script", "style", "meta", "link", "title", "head"]

/-- The getElementType method: svg gives VECTOR, text tags give TEXT, the image
tag gives RECTANGLE, form tags and everything else give FRAME. The styles
argument is unused, as in the source. -/
def getElementType (tagName : String) (_styles : Styles) : String :=
  if SvgConverter.isSvgElement tagName then "VECTOR"
  else if ["h1", "h2", "h3", "h4", "h5", "h6", "p", "span", "a", "label"].contains tagName then
    "TEXT"
  else if tagName == "img" then "RECTANGLE"
  else if ["button", "input", "textarea", "select"].contains tagName then "FRAME"
  else "FRAME"

/-- The createImageNode method: natural size wins over the attribute size when
it is truthy, the fill is an image paint over the encoded bytes, and a truthy
opacity style is parsed with default 1. -/
def createImageNode (env : ConvEnv) (d : Dom) (image : ImageResource)
    (styles : Styles) (viewport : Viewport) : DesignNode :=
  let width : JsNum :=
    match image.width with
    | some w => if w = 0 then parseSize (jsStrOr (domAttr d "width") "100") viewport.width else some w
    | none => parseSize (jsStrOr (domAttr d "width") "100") viewport.width
  let height : JsNum :=
    match image.height with
    | some h => if h = 0 then parseSize (jsStrOr (domAttr d "height") "100") viewport.height else some h
    | none => parseSize (jsStrOr (domAttr d "height") "100") viewport.height
  let base64 := env.imageToBase64 image
  let opacity : JsNum :=
    match getTruthy styles "opacity" with
    | some o => jsParseFloat o
    | none => some 1
  .mk (some (jsStrOr (domAttr d "alt") "Image")) "RECTANGLE" none none (some width) (some height)
    (some opacity) none none none none none none none none none none
    (some [Paint.imagePaint base64 "FILL"]) none none none none none

/-- Joining of the character runs of text children, as the map and join calls
do: a missing characters field joins as the empty string. -/
def joinCharacters (l : List DesignNode) : String :=
  l.foldl (fun acc c => acc ++ (DesignNode.charactersOf c).getD "") ""

set_option maxHeartbeats 1000000 in
/-- The convertElement method. Per source order: non-tag nodes (text nodes, and
script and style elements, which carry dedicated node types) give null; the
effective style is computed; the skip tags give null; an svg element is
delegated whole to the vector converter and renamed from its id or class
attributes; an image tag with a pre-fetched resource gives an image node; the
element children are converted recursively; when none survive, the trimmed
descendant text becomes one synthesized TEXT child; the node is assembled from
the tag, the classified type, the layout properties, background and text color
fills, corner radius and opacity; a TEXT node merges the character runs of its
TEXT children, every other node keeps the children list. -/
def convertElement (env : ConvEnv) (viewport : Viewport) (parentStyles : Styles) :
    Dom → Option DesignNode
  | .txt _ => none
  | .elem tag attrs children =>
    let d : Dom := .elem tag attrs children
    if Dom.nodeType d ≠ "tag" then none
    else
      let tagName := strLower tag
      let computedStyles := computeStyles (env.matchesSel d) env.cssRules parentStyles (domAttr d "style")
      if skipTags.contains tagName then none
      else
        let afterSvg : Option DesignNode :=
          if SvgConverter.isSvgElement tagName then
            match SvgConverter.convertSvgElement (env.svgParse d) d with
            | some svgNode =>
              some (svgNode.withName (some (jsStrOr (domAttr d "id")
                (jsStrOr (domAttr d "class") "SVG"))))
            | none => none
          else none
        match afterSvg with
        | some n => some n
        | none =>
          let afterImg : Option DesignNode :=
            if tagName = "img" then
              match domAttr d "src" with
              | some src =>
                if src ≠ "" then
                  match (env.images.find? (fun p => p.1 == src)).map (fun p => p.2) with
                  | some image => some (createImageNode env d image computedStyles viewport)
                  | none => none
                else none
              | none => none
            else none
          match afterImg with
          | some n => some n
          | none =>
            let kids := convertKids env viewport computedStyles children
            let kids2 :=
              if kids.isEmpty then
                let text := strTrim (domText d)
                if text ≠ "" then
                  [DesignNode.mk none "TEXT" none none none none none none none none none
                    none none none none none none none none (some text)
                    (some (getTextStyle env.fonts computedStyles)) none none]
                else []
              else kids
            let ty := getElementType tagName computedStyles
            let lp := getLayoutProperties computedStyles viewport
            let fills0 : Option (List Paint) :=
              match getTruthy computedStyles "backgroundColor" with
              | some bg => some [Paint.colorPaint (colorToFigma bg)]
              | none => none
            let fills : Option (List Paint) :=
              if ty = "TEXT" then
                match getTruthy computedStyles "color" with
                | some c => some [Paint.colorPaint (colorToFigma c)]
                | none => fills0
              else fills0
            let cornerRadius : Option JsNum :=
              match getTruthy computedStyles "borderRadius" with
              | some br => some (jsParseFloat br)
              | none => none
            let opacity : Option JsNum :=
              match getProp computedStyles "opacity" with
              | some o => some (jsParseFloat o)
              | none => none
            let charsAndChildren : Option String × Option (List DesignNode) :=
              if kids2.isEmpty then (none, none)
              else if ty = "TEXT" then
                (some (joinCharacters (kids2.filter (fun c => DesignNode.typeOf c == "TEXT"))),
                 none)
              else (none, some kids2)
            some (.mk (some tagName) ty none none lp.width lp.height opacity cornerRadius
              none lp.itemSpacing lp.layoutMode lp.primaryAxisSizingMode
              lp.counterAxisSizingMode lp.paddingLeft lp.paddingRight lp.paddingTop
              lp.paddingBottom fills none charsAndChildren.1 none none charsAndChildren.2)
where convertKids (env : ConvEnv) (viewport : Viewport) (st : Styles) :
    List Dom → List DesignNode
  | [] => []
  | c :: rest =>
    match convertElement env viewport st c with
    | some n => n :: convertKids env viewport st rest
    | none => convertKids env viewport st rest

/-- The contribution of one direct child of the body to the page: the loop body
of htmlToFigma. Only children whose node type is tag contribute; the element
that is converted is the first descendant of the body whose tag equals the tag
of the child, and the conversion starts from an empty parent style. -/
def bodyChildContribution (env : ConvEnv) (viewport : Viewport) (bodyKids : List Dom)
    (child : Dom) : Option DesignNode :=
  match child with
  | .elem t _ _ =>
    if Dom.nodeType child == "tag" then
      match findInForest t bodyKids with
      | some el => convertElement env viewport [] el
      | none => none
    else none
  | .txt _ => none

/-- The children of the single canvas page produced by htmlToFigma: one
contribution per direct child of the body, in order. The surrounding document
object, the css parse and the style extraction add no further page children. -/
def pageChildren (env : ConvEnv) (viewport : Viewport) (body : Dom) : List DesignNode :=
  match body with
  | .elem _ _ kids => kids.filterMap (bodyChildContribution env viewport kids)
  | .txt _ => []

/-! ## Concrete fixtures used by the theorems -/

/-- A conversion context with no rules, no matches, a successfully parsed empty
svg tree, no images and no fonts. -/
def env0 : ConvEnv := ⟨[], fun _ _ => false, fun _ => .ok [], [], fun _ => "", []⟩

/-- A conversion context whose svg parse oracle always raises. -/
def envSvgFail : ConvEnv := ⟨[], fun _ _ => false, fun _ => .error "malformed", [], fun _ => "", []⟩

/-- A fixed viewport. -/
def vp0 : Viewport := ⟨800, 600⟩

/-- A body with two div children that hold different text. -/
def demoBody : Dom := .elem "body" [] [.elem "div" [] [.txt "A"], .elem "div" [] [.txt "B"]]

/-- The effective style of a node with an inline flex declaration written as
CSS text. -/
def flexDemoStyles : Styles :=
  computeStyles (fun _ => false) [] [] (some "display:flex;flex-direction:column;gap:8px")

/-- The effective style of a node with an inline negative width. -/
def negWidthStyles : Styles :=
  computeStyles (fun _ => false) [] [] (some "width:-50px")

/-- All character runs reachable from a node, in order: its own characters
field followed by the runs of its children. -/
def collectChars : DesignNode → String
  | .mk _ _ _ _ _ _ _ _ _ _ _ _ _ _ _ _ _ _ _ chars _ _ none => chars.getD ""
  | .mk _ _ _ _ _ _ _ _ _ _ _ _ _ _ _ _ _ _ _ chars _ _ (some cs) =>
    (chars.getD "") ++ goCC cs
where goCC : List DesignNode → String
  | [] => ""
  | c :: rest => collectChars c ++ goCC rest

/-! ## Supporting lemmas about the cascade -/

/-- Folding the assignment step over a style list from any start value gives
the last binding of the key when there is one, and the start value otherwise. -/
theorem getProp_foldl (k : String) (b : Styles) (init : Option String) :
    b.foldl (fun acc p => if p.1 == k then some p.2 else acc) init =
      match getProp b k with
      | some v => some v
      | none => init := by
  induction b generalizing init with
  | nil => rfl
  | cons p rest ih =>
    show List.foldl _ (if p.1 == k then some p.2 else init) rest = _
    rw [ih]
    have hcons : getProp (p :: rest) k =
        List.foldl (fun acc q => if q.1 == k then some q.2 else acc)
          (if p.1 == k then some p.2 else none) rest := rfl
    rw [hcons, ih]
    cases hr : getProp rest k with
    | some v => simp
    | none => by_cases hp : p.1 == k <;> simp [hp]

/-- Lookup in the concatenation of two style lists prefers the second list. -/
theorem getProp_append (a b : Styles) (k : String) :
    getProp (a ++ b) k =
      match getProp b k with
      | some v => some v
      | none => getProp a k := by
  show (a ++ b).foldl _ none = _
  rw [List.foldl_append]
  exact getProp_foldl k b (getProp a k)

/-- Applying rules over an appended rule list is sequential application. -/
theorem applyMatchedRules_append (f : String → Bool) (rs1 rs2 : CssRules) (st : Styles) :
    applyMatchedRules f (rs1 ++ rs2) st = applyMatchedRules f rs2 (applyMatchedRules f rs1 st) := by
  simp [applyMatchedRules, List.foldl_append]

/-- Rules that do not match, or do not bind the property, leave its value
unchanged. -/
theorem applyMatchedRules_skips (f : String → Bool) (p : String) :
    ∀ post : CssRules, (∀ r ∈ post, f r.1 = false ∨ getProp r.2 p = none) →
      ∀ st, getProp (applyMatchedRules f post st) p = getProp st p := by
  intro post
  induction post with
  | nil => intro _ st; rfl
  | cons r rest ih =>
    intro h st
    have hr := h r (by simp)
    have hrest : ∀ q ∈ rest, f q.1 = false ∨ getProp q.2 p = none :=
      fun q hq => h q (by simp [hq])
    show getProp (applyMatchedRules f rest (if f r.1 then st ++ r.2 else st)) p = _
    rw [ih hrest]
    rcases hr with hf | hnone
    · simp [hf]
    · by_cases hf : f r.1
      · simp [hf, getProp_append, hnone]
      · simp [hf]

/-! ## Claim C1 -/

/-- C1, counterexample: a node matching both the id selector and the type
selector (for example a div with id a) resolves the shared property to the
value of the type-selector rule that is later in the rule map, although the id
selector has strictly higher specificity, so the higher-specificity rule does
not win. -/
theorem specificity_ignored_counterexample :
    SelectorMatcher.getSelectorSpecificity "#a" = 1000 ∧
    SelectorMatcher.getSelectorSpecificity "div" = 1 ∧
    getProp (computeStyles (fun _ => true)
      [("#a", [("color", "red")]), ("div", [("color", "blue")])] [] none) "color" =
      some "blue" := by
  refine ⟨by decide, by decide, by decide⟩

/-- C1, amended: among matched rules the one latest in rule-map order that
binds the property decides its resolved value, whatever the specificities
involved are; specificity is never consulted by computeStyles. -/
theorem cascade_later_matched_rule_wins
    (matchesSel : String → Bool) (pre post : CssRules) (sel : String) (decls : Styles)
    (parentStyles : Styles) (p v : String)
    (hm : matchesSel sel = true)
    (hv : getProp decls p = some v)
    (hpost : ∀ r ∈ post, matchesSel r.1 = false ∨ getProp r.2 p = none) :
    getProp (computeStyles matchesSel (pre ++ (sel, decls) :: post) parentStyles none) p =
      some v := by
  show getProp (applyMatchedRules matchesSel (pre ++ (sel, decls) :: post) parentStyles) p =
    some v
  have hsplit : pre ++ (sel, decls) :: post = (pre ++ [(sel, decls)]) ++ post := by simp
  rw [hsplit, applyMatchedRules_append, applyMatchedRules_skips matchesSel p post hpost,
    applyMatchedRules_append]
  show getProp
    (List.foldl _ (applyMatchedRules matchesSel pre parentStyles) [(sel, decls)]) p = some v
  simp [applyMatchedRules, hm, getProp_append, hv]

/-- C1, witness for the amended statement: the later matched type-selector rule
decides the color. -/
theorem cascade_later_matched_rule_wins_witness :
    getProp (computeStyles (fun _ => true)
      [("#a", [("color", "red")]), ("div", [("color", "blue")])] [] none) "color" =
      some "blue" :=
  cascade_later_matched_rule_wins (fun _ => true) [("#a", [("color", "red")])] []
    "div" [("color", "blue")] [] "color" "blue" rfl rfl (by simp)

/-! ## Claim C2 -/

/-- C2: a property bound by the inline style attribute resolves to the inline
value, whatever the matched rules contributed for it. -/
theorem inline_style_overrides_rules
    (matchesSel : String → Bool) (cssRules : CssRules) (parentStyles : Styles)
    (inl : String) (p v : String)
    (h : getProp (parseInlineStyles inl) p = some v) :
    getProp (computeStyles matchesSel cssRules parentStyles (some inl)) p = some v := by
  show getProp (applyMatchedRules matchesSel cssRules parentStyles ++ parseInlineStyles inl) p =
    some v
  rw [getProp_append, h]

/-- C2, witness: an inline color wins over a matched rule color of any
specificity. -/
theorem inline_style_overrides_rules_witness :
    getProp (computeStyles (fun _ => true) [("#a", [("color", "red")])] []
      (some "color: blue")) "color" = some "blue" :=
  inline_style_overrides_rules (fun _ => true) [("#a", [("color", "red")])] []
    "color: blue" "color" "blue" (by decide)

/-! ## Claim C3 -/

/-- C3: evaluation of the color parser at the disputed inputs. The full hex
form maps as claimed and unrecognized input gives opaque black, but the rgba
alpha of one half is parsed to zero, because the digit-run regex splits the
decimal, and the three-digit hex form is mis-sliced: red reads two digits,
blue reads an empty slice and is NaN. -/
theorem colorToFigma_rgba_alpha_divergence :
    colorToFigma "#ff0000" = ⟨some 1, some 0, some 0, some 1⟩ ∧
    colorToFigma "rgba(0,0,0,0.5)" = ⟨some 0, some 0, some 0, some 0⟩ ∧
    colorToFigma "#f00" = ⟨some (16 / 17), some 0, none, some 1⟩ ∧
    colorToFigma "tomato" = ⟨some 0, some 0, some 0, some 1⟩ := by
  refine ⟨?_, ?_, ?_, ?_⟩
  · simp +decide [colorToFigma, strStartsWith, strSlice, strDrop, strLen, jsParseInt16,
      jsSign, hexToNat, hexDigitVal, isHexDigit]
  · simp +decide [colorToFigma, digitRuns, digitRunsGo, jsParseInt, jsParseFloat, jsSign,
      digitsToNat, strStartsWith]
  · simp +decide [colorToFigma, strStartsWith, strSlice, strDrop, strLen, jsParseInt16,
      jsSign, hexToNat, hexDigitVal, isHexDigit]
    norm_num
  · simp +decide [colorToFigma, strStartsWith]

/-! ## Claim C4 -/

/-- C4: a flex column declared as CSS text (whether inline, as here, or from a
rule, which stores keys the same way) yields layout mode HORIZONTAL, because
getLayoutProperties reads the camel-case key flexDirection while the effective
style holds the kebab-case key flex-direction; the sizing modes and the gap
mapping behave as claimed. -/
theorem flexDirection_key_mismatch_divergence :
    getProp flexDemoStyles "display" = some "flex" ∧
    getProp flexDemoStyles "flex-direction" = some "column" ∧
    getProp flexDemoStyles "flexDirection" = none ∧
    (getLayoutProperties flexDemoStyles vp0).layoutMode = some "HORIZONTAL" ∧
    (getLayoutProperties flexDemoStyles vp0).primaryAxisSizingMode = some "AUTO" ∧
    (getLayoutProperties flexDemoStyles vp0).counterAxisSizingMode = some "AUTO" ∧
    (getLayoutProperties flexDemoStyles vp0).itemSpacing = some (some 8) := by
  refine ⟨by decide, by decide, by decide, by decide, by decide, by decide, ?_⟩
  simp +decide [getLayoutProperties, flexDemoStyles, computeStyles, applyMatchedRules,
    parseInlineStyles, splitOnChar, splitOnCharGo, strTrim, getTruthy, getProp,
    jsParseFloat, jsSign, digitsToNat, jsStrOr, vp0]

/-! ## Claim C5 -/

/-- C5: the padding shorthand expands one value to all four sides, two values
to vertical then horizontal, four values to top, right, bottom, left, and any
other count to the all-zero padding; the three concrete expansions of the
claim evaluate as stated. -/
theorem parsePadding_shorthand_expansion :
    (∀ (s : String) (v0 : JsNum), (splitWs s).map jsParseFloat = [v0] →
       parsePadding s = ⟨v0, v0, v0, v0⟩) ∧
    (∀ (s : String) (v0 v1 : JsNum), (splitWs s).map jsParseFloat = [v0, v1] →
       parsePadding s = ⟨v0, v1, v0, v1⟩) ∧
    (∀ (s : String) (v0 v1 v2 v3 : JsNum),
       (splitWs s).map jsParseFloat = [v0, v1, v2, v3] →
       parsePadding s = ⟨v0, v1, v2, v3⟩) ∧
    (∀ (s : String) (l : List JsNum), (splitWs s).map jsParseFloat = l →
       l.length ≠ 1 → l.length ≠ 2 → l.length ≠ 4 →
       parsePadding s = ⟨some 0, some 0, some 0, some 0⟩) ∧
    parsePadding "10px" = ⟨some 10, some 10, some 10, some 10⟩ ∧
    parsePadding "10px 20px" = ⟨some 10, some 20, some 10, some 20⟩ ∧
    parsePadding "1 2 3 4" = ⟨some 1, some 2, some 3, some 4⟩ := by
  refine ⟨?_, ?_, ?_, ?_, ?_, ?_, ?_⟩
  · intro s v0 h; simp [parsePadding, h]
  · intro s v0 v1 h; simp [parsePadding, h]
  · intro s v0 v1 v2 v3 h; simp [parsePadding, h]
  · intro s l h h1 h2 h4
    simp only [parsePadding, h]
    rcases l with - | ⟨a, - | ⟨b, - | ⟨c, - | ⟨d, - | ⟨e, rest⟩⟩⟩⟩⟩
    · rfl
    · exact absurd rfl h1
    · exact absurd rfl h2
    · rfl
    · exact absurd rfl h4
    · rfl
  · simp +decide [parsePadding, splitWs, splitWsGo, jsParseFloat, jsSign, digitsToNat]
  · simp +decide [parsePadding, splitWs, splitWsGo, jsParseFloat, jsSign, digitsToNat]
  · simp +decide [parsePadding, splitWs, splitWsGo, jsParseFloat, jsSign, digitsToNat]

/-- C5, witness: the one-value clause applied at a concrete input. -/
theorem parsePadding_shorthand_expansion_witness :
    parsePadding "42px" = ⟨some 42, some 42, some 42, some 42⟩ :=
  parsePadding_shorthand_expansion.1 "42px" (some 42)
    (by simp +decide [splitWs, splitWsGo, jsParseFloat, jsSign, digitsToNat])

/-! ## Claim C6 -/

/-- C6, counterexample: a div whose only child is a title element produces a
synthesized TEXT child holding exactly the text inside the skipped title
subtree, while the title alone converts to nothing and the empty div has no
children, so the skipped subtree does contribute an output node. -/
theorem skipped_subtree_text_leak_counterexample :
    (convertElement env0 vp0 [] (.elem "div" [] [.elem "title" [] [.txt "Hi"]])).map
        (fun n => (n.childrenOf.getD []).map DesignNode.charactersOf) = some [some "Hi"] ∧
    convertElement env0 vp0 [] (.elem "title" [] [.txt "Hi"]) = none ∧
    (convertElement env0 vp0 [] (.elem "div" [] [])).map (fun n => n.childrenOf) =
      some none :=
  ⟨rfl, rfl, rfl⟩

/-- C6, amended: an element tagged script, style, meta, link, title or head
never itself produces an output node, at any depth of the recursion, and no
element below it is visited; its descendant text can however still surface
through the text fallback of an ancestor, as the counterexample shows. -/
theorem skip_tags_produce_no_nodes
    (env : ConvEnv) (viewport : Viewport) (parentStyles : Styles)
    (tag : String) (attrs : List (String × String)) (children : List Dom)
    (h : skipTags.contains (strLower tag) = true) :
    convertElement env viewport parentStyles (.elem tag attrs children) = none := by
  simp only [convertElement]
  split
  · rfl
  · simp [h]

/-- C6, witness for the amended statement: a script element with content
converts to nothing. -/
theorem skip_tags_produce_no_nodes_witness :
    convertElement env0 vp0 [] (.elem "script" [] [.txt "var x = 1;"]) = none :=
  skip_tags_produce_no_nodes env0 vp0 [] "script" [] [.txt "var x = 1;"] (by decide)

/-! ## Claim C7 -/

/-- C7: when the parse of an embedded vector subtree raises, at whatever depth
the underlying parser failed, the converter returns the fixed placeholder: a
VECTOR node of width 100 and height 100 with one flat grey fill; and a larger
conversion that contains such a malformed subtree still succeeds, embedding
the placeholder (renamed from the id, class or the SVG default) as an ordinary
child. -/
theorem svg_parse_failure_placeholder
    (tag : String) (attrs : List (String × String)) (children : List Dom) (err : String)
    (h : strLower tag = "svg") :
    SvgConverter.convertSvgElement (.error err) (.elem tag attrs children) =
      some SvgConverter.svgPlaceholder ∧
    SvgConverter.svgPlaceholder.typeOf = "VECTOR" ∧
    SvgConverter.svgPlaceholder.widthOf = some (some 100) ∧
    SvgConverter.svgPlaceholder.heightOf = some (some 100) ∧
    SvgConverter.svgPlaceholder.fillsOf =
      some [Paint.colorPaint ⟨some (4 / 5), some (4 / 5), some (4 / 5), some 1⟩] ∧
    (convertElement envSvgFail vp0 [] (.elem "div" [] [.elem "svg" [] [.txt "bad"]])).map
        (fun n => (n.childrenOf.getD []).map (fun c => (c.nameOf, c.widthOf, c.heightOf))) =
      some [(some "SVG", some (some 100), some (some 100))] := by
  refine ⟨?_, rfl, rfl, rfl, rfl, rfl⟩
  simp [SvgConverter.convertSvgElement, h]

/-- C7, witness: the placeholder at a concrete malformed svg element. -/
theorem svg_parse_failure_placeholder_witness :
    SvgConverter.convertSvgElement (.error "bad path data") (.elem "svg" [] []) =
      some SvgConverter.svgPlaceholder ∧
    SvgConverter.svgPlaceholder.typeOf = "VECTOR" ∧
    SvgConverter.svgPlaceholder.widthOf = some (some 100) ∧
    SvgConverter.svgPlaceholder.heightOf = some (some 100) ∧
    SvgConverter.svgPlaceholder.fillsOf =
      some [Paint.colorPaint ⟨some (4 / 5), some (4 / 5), some (4 / 5), some 1⟩] ∧
    (convertElement envSvgFail vp0 [] (.elem "div" [] [.elem "svg" [] [.txt "bad"]])).map
        (fun n => (n.childrenOf.getD []).map (fun c => (c.nameOf, c.widthOf, c.heightOf))) =
      some [(some "SVG", some (some 100), some (some 100))] :=
  svg_parse_failure_placeholder "svg" [] [] "bad path data" (by decide)

/-! ## Claim C8 -/

/-- C8, counterexample: a declared negative pixel width is carried through to
the width field unchanged, so a set width can be negative. -/
theorem negative_size_counterexample :
    (getLayoutProperties negWidthStyles vp0).width = some (some (-50)) ∧
    ((-50 : ℚ) < 0) := by
  constructor
  · simp +decide [getLayoutProperties, negWidthStyles, computeStyles, applyMatchedRules,
      parseInlineStyles, splitOnChar, splitOnCharGo, strTrim, getTruthy, getProp,
      parseSize, strEndsWith, jsParseFloat, jsSign, digitsToNat, vp0]
  · norm_num

/-- C8, amended: a set width or height equals parseSize of the declared string
against the matching viewport axis, and it is non-negative whenever the
declared number is non-negative and the viewport axis is non-negative; no
clamping is applied, so negative declarations give negative sizes. -/
theorem parseSize_nonneg_of_nonneg :
    (∀ (s : String) (maxSize : ℚ), 0 ≤ maxSize →
      (∀ v, jsParseFloat s = some v → 0 ≤ v) →
      ∀ w, parseSize s maxSize = some w → 0 ≤ w) ∧
    (∀ (styles : Styles) (viewport : Viewport) (wstr : String),
      getTruthy styles "width" = some wstr →
      (getLayoutProperties styles viewport).width = some (parseSize wstr viewport.width)) ∧
    (∀ (styles : Styles) (viewport : Viewport) (hstr : String),
      getTruthy styles "height" = some hstr →
      (getLayoutProperties styles viewport).height = some (parseSize hstr viewport.height)) := by
  refine ⟨?_, ?_, ?_⟩
  · intro s maxSize hmax hv w hw
    simp only [parseSize] at hw
    split_ifs at hw with h1 h2 h3
    · exact hv w hw
    · obtain ⟨v, hveq, rfl⟩ := Option.map_eq_some'.mp hw
      have h0 : (0 : ℚ) ≤ v := hv v hveq
      have : (0 : ℚ) ≤ v / 100 := by positivity
      exact mul_nonneg this hmax
    · obtain ⟨v, hveq, rfl⟩ := Option.map_eq_some'.mp hw
      have h0 : (0 : ℚ) ≤ v := hv v hveq
      positivity
    · cases hw
      cases hfl : jsParseFloat s with
      | none => simp [jsOrZero, hfl]
      | some v => simpa [jsOrZero, hfl] using hv v hfl
  · intro styles viewport wstr h
    simp [getLayoutProperties, h]
  · intro styles viewport hstr h
    simp [getLayoutProperties, h]

/-- C8, witness for the amended statement: a concrete non-negative width. -/
theorem parseSize_nonneg_of_nonneg_witness : (0 : ℚ) ≤ 50 :=
  parseSize_nonneg_of_nonneg.1 "50px" 800 (by norm_num)
    (fun v hv => by
      rw [show jsParseFloat "50px" = some 50 by
        simp +decide [jsParseFloat, jsSign, digitsToNat]] at hv
      cases hv
      norm_num)
    50
    (by simp +decide [parseSize, strEndsWith, jsParseFloat, jsSign, digitsToNat])

/-! ## Claim C9 -/

/-- Helper: the mapped weight is the clamp of the input weight to the range
100 to 900, divided by 100, rounded half up, times 100. -/
theorem figma_weight_key (fi : FontManager.FontInfo) :
    (FontManager.mapToFigmaFont fi).figmaWeight =
      ((⌊(min 900 (max 100 fi.weight)) / 100 + 1 / 2⌋ : ℤ) : ℚ) * 100 := by
  simp only [FontManager.mapToFigmaFont, jsMathRound]
  have hc : (if (if fi.weight < 100 then (100 : ℚ) else fi.weight) > 900 then (900 : ℚ)
      else if fi.weight < 100 then (100 : ℚ) else fi.weight) =
      min 900 (max 100 fi.weight) := by
    rcases lt_or_le fi.weight 100 with h1 | h1
    · simp only [if_pos h1]
      rw [if_neg (by norm_num : ¬ (100 : ℚ) > 900), max_eq_left h1.le,
        min_eq_right (by norm_num : (100 : ℚ) ≤ 900)]
    · simp only [if_neg (not_lt.mpr h1)]
      rw [max_eq_right h1]
      rcases le_or_lt fi.weight 900 with h2 | h2
      · rw [if_neg (not_lt.mpr h2), min_eq_right h2]
      · rw [if_pos h2, min_eq_left h2.le]
  rw [hc]

/-- C9: for every numeric weight the mapped Figma weight lies between 100 and
900, is an integer multiple of 100, and is within 50 of the clamped input, so
it is the nearest multiple of 100 of the clamp (ties rounding up); the three
concrete normalizations of the claim evaluate as stated. -/
theorem figma_weight_clamped_rounded :
    (∀ fi : FontManager.FontInfo,
      100 ≤ (FontManager.mapToFigmaFont fi).figmaWeight ∧
      (FontManager.mapToFigmaFont fi).figmaWeight ≤ 900 ∧
      (∃ k : ℤ, (FontManager.mapToFigmaFont fi).figmaWeight = 100 * (k : ℚ)) ∧
      |(FontManager.mapToFigmaFont fi).figmaWeight - min 900 (max 100 fi.weight)| ≤ 50) ∧
    (FontManager.mapToFigmaFont ⟨"arial", 650, "normal", 16⟩).figmaWeight = 700 ∧
    (FontManager.mapToFigmaFont ⟨"arial", 50, "normal", 16⟩).figmaWeight = 100 ∧
    (FontManager.mapToFigmaFont ⟨"arial", 1000, "normal", 16⟩).figmaWeight = 900 := by
  refine ⟨?_, ?_, ?_, ?_⟩
  · intro fi
    rw [figma_weight_key]
    set c : ℚ := min 900 (max 100 fi.weight) with hcdef
    have hc1 : (100 : ℚ) ≤ c := le_min (by norm_num) (le_max_left _ _)
    have hc2 : c ≤ 900 := min_le_left _ _
    set r : ℤ := ⌊c / 100 + 1 / 2⌋ with hrdef
    have hf1 : (r : ℚ) ≤ c / 100 + 1 / 2 := Int.floor_le _
    have hf2 : c / 100 + 1 / 2 < (r : ℚ) + 1 := Int.lt_floor_add_one _
    have hdiv : (c / 100) * 100 = c := by field_simp
    have hr1 : (1 : ℚ) ≤ (r : ℚ) := by
      have : (1 : ℤ) ≤ r := Int.le_floor.mpr (by
        have : (1 : ℚ) ≤ c / 100 := by
          rw [le_div_iff₀ (by norm_num : (0 : ℚ) < 100)]
          linarith
        push_cast
        linarith)
      exact_mod_cast this
    have hr9 : (r : ℚ) ≤ 9 := by
      have : r ≤ 9 := by
        have h10 : c / 100 + 1 / 2 < 10 := by
          have : c / 100 ≤ 9 := by
            rw [div_le_iff₀ (by norm_num : (0 : ℚ) < 100)]
            linarith
          linarith
        exact Int.le_of_lt_add_one (Int.floor_lt.mpr (by push_cast; linarith))
      exact_mod_cast this
    refine ⟨by linarith, by linarith, ⟨r, by ring⟩, ?_⟩
    rw [abs_le]
    constructor
    · nlinarith
    · nlinarith
  · rw [figma_weight_key]
    norm_num
  · rw [figma_weight_key]
    norm_num
  · rw [figma_weight_key]
    norm_num

/-! ## Claim C10 -/

/-- C10: the page walk converts, for each tag-typed direct child of the body,
the first descendant of the body carrying the tag of that child; hence any two
same-tag element children contribute identical results, whatever their own
attributes and content are, and in the concrete two-div body the first div is
converted twice while the text of the second div appears nowhere in the
output. -/
theorem body_walk_first_descendant_duplication :
    (∀ (env : ConvEnv) (viewport : Viewport) (bodyTag : String)
       (bodyAttrs : List (String × String)) (kids : List Dom),
       pageChildren env viewport (.elem bodyTag bodyAttrs kids) =
         kids.filterMap (bodyChildContribution env viewport kids)) ∧
    (∀ (env : ConvEnv) (viewport : Viewport) (kids : List Dom) (t : String)
       (a1 : List (String × String)) (k1 : List Dom)
       (a2 : List (String × String)) (k2 : List Dom),
       bodyChildContribution env viewport kids (.elem t a1 k1) =
         bodyChildContribution env viewport kids (.elem t a2 k2)) ∧
    (pageChildren env0 vp0 demoBody).map collectChars = ["A", "A"] ∧
    (pageChildren env0 vp0 demoBody)[0]? = (pageChildren env0 vp0 demoBody)[1]? := by
  refine ⟨fun _ _ _ _ _ => rfl, ?_, rfl, rfl⟩
  intro env vp kids t a1 k1 a2 k2
  simp [bodyChildContribution, Dom.nodeType]
